import Mathlib

/-!
Verification of the LLM inference worker's job-queue engine
(`llm-inference/worker.py`) against its design specification.

The SQLite store is modelled as an explicit state (`DB`) holding the two
tables (`jobs`, `audio_submissions`) as lists of rows, together with the
AUTOINCREMENT counter for job ids.  `CURRENT_TIMESTAMP` is modelled by an
explicit `Nat` argument to every operation that writes a timestamp (SQLite
stores `YYYY-MM-DD HH:MM:SS` text whose lexicographic order is chronological,
so `Nat` with its usual order is a faithful abstraction).  JSON metadata blobs
(`json.dumps`/`json.loads` round-trips) are modelled by a `Json` value type;
numeric payloads are modelled as integers.  The external backends
(faster-whisper, the Deepgram API, Ollama) and the filesystem are out of
scope per the spec; they enter only through an `Env` of oracle functions, a
backend call being modelled as `Except String (String × String × Int)`
(error message, or `(output_text, model_name, processing_time_ms)`).
-/

/-- JSON values, as stored in the `metadata` TEXT columns. -/
inductive Json where
  | null
  | jbool (b : Bool)
  | jnum (n : Int)
  | jstr (s : String)
  | jarr (elems : List Json)
  | jobj (fields : List (String × Json))

/-- Python truthiness of a JSON value (`if value:`). -/
def jtruthy : Json → Bool
  | .null => false
  | .jbool b => b
  | .jnum n => n != 0
  | .jstr s => s != ""
  | .jarr elems => !elems.isEmpty
  | .jobj fields => !fields.isEmpty

/-- Python truthiness of `dict.get(key, False)`: a missing key defaults to
`False`, which is falsy. -/
def jtruthyOpt : Option Json → Bool
  | none => false
  | some v => jtruthy v

/-- First binding of a key in an association list (Python dicts have unique
keys, so first-match lookup is exact). -/
def lookupField : List (String × Json) → String → Option Json
  | [], _ => none
  | (k, v) :: rest, key => if k = key then some v else lookupField rest key

/-- `dict.get(key)` on a parsed JSON object; non-objects have no keys. -/
def jlookup (j : Json) (key : String) : Option Json :=
  match j with
  | .jobj fields => lookupField fields key
  | _ => none

/-- Python truthiness of an `Optional[str]` (`if error_message:`): both
`None` and the empty string are falsy. -/
def strTruthy : Option String → Bool
  | none => false
  | some s => s != ""

/-- A row of the `jobs` table (worker.py `init_database`, jobs schema). -/
structure Job where
  id : Nat
  job_type : String
  status : String
  provider : String
  input_file_path : Option String
  input_text : Option String
  output_text : Option String
  error_message : Option String
  audio_file_id : Option String
  metadata : Option Json
  created_at : Nat
  started_at : Option Nat
  completed_at : Option Nat
  processing_time_ms : Option Int
  model_used : Option String

/-- A row of the `audio_submissions` table. `REAL` durations are modelled as
rationals. -/
structure Submission where
  id : String
  filename : String
  original_filename : Option String
  file_path : String
  mime_type : Option String
  file_size : Option Int
  duration_seconds : Option ℚ
  transcript : Option String
  transcript_job_id : Option Nat
  transcribed_at : Option Nat
  summary : Option String
  summary_job_id : Option Nat
  summarized_at : Option Nat
  status : String
  error_message : Option String
  metadata : Option Json
  created_at : Nat
  updated_at : Nat

/-- The durable store: the two tables plus the AUTOINCREMENT counter that
yields the next job id (`cursor.lastrowid` after an insert). -/
structure DB where
  jobs : List Job
  submissions : List Submission
  next_job_id : Nat

/-- The jobs-table CHECK constraint on `job_type`. -/
def jobTypeOk (t : String) : Bool :=
  t == "transcribe" || t == "summarize"

/-- The jobs-table CHECK constraint on `provider`. -/
def providerOk (p : String) : Bool :=
  p == "local" || p == "deepgram" || p == "openai" || p == "anthropic"

/-- The row inserted by `create_job`: defaults `status = 'pending'`,
`created_at = CURRENT_TIMESTAMP`, all output fields NULL.  The stored
metadata is `json.dumps(metadata) if metadata else None`, so a falsy (empty)
dict is stored as NULL. -/
def newJobRow (id now : Nat) (job_type provider : String)
    (input_file_path input_text audio_file_id : Option String)
    (metadata : Option Json) : Job :=
  { id := id
    job_type := job_type
    status := "pending"
    provider := provider
    input_file_path := input_file_path
    input_text := input_text
    output_text := none
    error_message := none
    audio_file_id := audio_file_id
    metadata :=
      match metadata with
      | some m => if jtruthy m then some m else none
      | none => none
    created_at := now
    started_at := none
    completed_at := none
    processing_time_ms := none
    model_used := none }

/-- `create_job(job_type, input_file_path, input_text, audio_file_id,
metadata, provider)`: a bare INSERT returning the new row id.  The only way
the insert can be refused is the store-level CHECK constraints on
`job_type` and `provider` (modelled as `none`); there is no validation of
the input fields. -/
def createJob (db : DB) (now : Nat) (job_type provider : String)
    (input_file_path input_text audio_file_id : Option String)
    (metadata : Option Json) : Option (Nat × DB) :=
  if jobTypeOk job_type && providerOk provider then
    some (db.next_job_id,
      { db with
        jobs := db.jobs ++
          [newJobRow db.next_job_id now job_type provider
            input_file_path input_text audio_file_id metadata]
        next_job_id := db.next_job_id + 1 })
  else
    none

/-- FIFO claim order: ascending `created_at`, ties by ascending id (the
`ORDER BY created_at ASC LIMIT 1` subquery is served by the
`idx_jobs_status_created` index, whose entries with equal keys are stored in
rowid order). -/
def keyLt (a b : Job) : Prop :=
  a.created_at < b.created_at ∨ (a.created_at = b.created_at ∧ a.id < b.id)

/-- Reflexive version of the claim order. -/
def keyLe (a b : Job) : Prop :=
  a.created_at < b.created_at ∨ (a.created_at = b.created_at ∧ a.id ≤ b.id)

instance keyLtDec (a b : Job) : Decidable (keyLt a b) := by
  unfold keyLt; exact inferInstance

instance keyLeDec (a b : Job) : Decidable (keyLe a b) := by
  unfold keyLe; exact inferInstance

/-- Keep the smaller of a candidate row and the best row seen so far. -/
def pickMin (a : Job) : Option Job → Option Job
  | none => some a
  | some b => if keyLt a b then some a else some b

/-- The row chosen by
`SELECT id FROM jobs WHERE status = 'pending' ORDER BY created_at ASC LIMIT 1`. -/
def selectNextPending : List Job → Option Job
  | [] => none
  | j :: rest =>
    if j.status = "pending" then pickMin j (selectNextPending rest)
    else selectNextPending rest

/-- The `SET status = 'processing', started_at = CURRENT_TIMESTAMP` part of
the claim UPDATE. -/
def claimUpdate (t : Nat) (j : Job) : Job :=
  { j with status := "processing", started_at := some t }

/-- `get_next_pending_job()`: the single atomic
`UPDATE ... WHERE id = (SELECT ...) RETURNING *` statement.  Returns the
updated row (RETURNING yields post-update values) and the new store state;
`(none, db)` when no pending job exists. -/
def getNextPendingJob (db : DB) (t : Nat) : Option Job × DB :=
  match selectNextPending db.jobs with
  | none => (none, db)
  | some j =>
    (some (claimUpdate t j),
     { db with
       jobs := db.jobs.map (fun k => if k.id = j.id then claimUpdate t k else k) })

/-- `complete_job(job_id, output_text, model_used, processing_time_ms)`:
an unconditional UPDATE on the row with the given id — there is no check of
the row's current status. -/
def completeJob (db : DB) (now : Nat) (job_id : Nat)
    (output_text model_used : String) (processing_time_ms : Int) : DB :=
  { db with
    jobs := db.jobs.map (fun j =>
      if j.id = job_id then
        { j with
          status := "completed"
          output_text := some output_text
          model_used := some model_used
          processing_time_ms := some processing_time_ms
          completed_at := some now }
      else j) }

/-- `fail_job(job_id, error_message)`: likewise an unconditional UPDATE. -/
def failJob (db : DB) (now : Nat) (job_id : Nat) (error_message : String) : DB :=
  { db with
    jobs := db.jobs.map (fun j =>
      if j.id = job_id then
        { j with
          status := "failed"
          error_message := some error_message
          completed_at := some now }
      else j) }

/-- `get_job(job_id)`. -/
def getJob (db : DB) (job_id : Nat) : Option Job :=
  db.jobs.find? (fun j => j.id == job_id)

/-- `get_audio_submission(submission_id)`. -/
def getAudioSubmission (db : DB) (submission_id : String) : Option Submission :=
  db.submissions.find? (fun s => s.id == submission_id)

/-- `create_audio_submission(...)`: INSERT with defaults `status = 'pending'`
and `created_at = updated_at = CURRENT_TIMESTAMP`; stored metadata again via
`json.dumps(metadata) if metadata else None`. -/
def createAudioSubmission (db : DB) (now : Nat) (submission_id filename file_path : String)
    (original_filename mime_type : Option String) (file_size : Option Int)
    (duration_seconds : Option ℚ) (metadata : Option Json) : DB :=
  { db with
    submissions := db.submissions ++
      [{ id := submission_id
         filename := filename
         original_filename := original_filename
         file_path := file_path
         mime_type := mime_type
         file_size := file_size
         duration_seconds := duration_seconds
         transcript := none
         transcript_job_id := none
         transcribed_at := none
         summary := none
         summary_job_id := none
         summarized_at := none
         status := "pending"
         error_message := none
         metadata :=
           match metadata with
           | some m => if jtruthy m then some m else none
           | none => none
         created_at := now
         updated_at := now }] }

/-- `update_audio_submission_transcript(submission_id, transcript, job_id)`:
sets the transcript fields and unconditionally moves the submission to
`'summarizing'`. -/
def updateAudioSubmissionTranscript (db : DB) (now : Nat)
    (submission_id transcript : String) (job_id : Nat) : DB :=
  { db with
    submissions := db.submissions.map (fun s =>
      if s.id = submission_id then
        { s with
          transcript := some transcript
          transcript_job_id := some job_id
          transcribed_at := some now
          status := "summarizing"
          updated_at := now }
      else s) }

/-- `update_audio_submission_summary(submission_id, summary, job_id)`. -/
def updateAudioSubmissionSummary (db : DB) (now : Nat)
    (submission_id summary : String) (job_id : Nat) : DB :=
  { db with
    submissions := db.submissions.map (fun s =>
      if s.id = submission_id then
        { s with
          summary := some summary
          summary_job_id := some job_id
          summarized_at := some now
          status := "completed"
          updated_at := now }
      else s) }

/-- `update_audio_submission_status(submission_id, status, error_message)`:
the Python guard is `if error_message:`, so the error detail is written only
when it is a non-`None`, non-empty string. -/
def updateAudioSubmissionStatus (db : DB) (now : Nat)
    (submission_id status : String) (error_message : Option String) : DB :=
  if strTruthy error_message then
    { db with
      submissions := db.submissions.map (fun s =>
        if s.id = submission_id then
          { s with status := status, error_message := error_message, updated_at := now }
        else s) }
  else
    { db with
      submissions := db.submissions.map (fun s =>
        if s.id = submission_id then
          { s with status := status, updated_at := now }
        else s) }

/-- The aggregate returned by `get_queue_status()`. -/
structure QueueStatus where
  total_jobs : Nat
  pending : Nat
  processing : Nat
  completed : Nat
  failed : Nat
  avg_processing_time_ms : Option Int

/-- `processing_time_ms` values of completed jobs, the rows averaged by
`AVG(processing_time_ms) WHERE status = 'completed' AND processing_time_ms
IS NOT NULL` (SQL AVG already skips NULLs). -/
def completedTimes (db : DB) : List Int :=
  db.jobs.filterMap (fun j =>
    if j.status = "completed" then j.processing_time_ms else none)

/-- Python 3 `round` on the SQL AVG: round half to even. -/
def pyRound (q : ℚ) : Int :=
  let f : Int := ⌊q⌋
  let r : ℚ := q - (f : ℚ)
  if r < 1 / 2 then f
  else if 1 / 2 < r then f + 1
  else if f % 2 = 0 then f else f + 1

/-- `get_queue_status()`: three read-only queries combined into one
aggregate.  `round(avg_time) if avg_time else None` makes both a NULL AVG
(no qualifying rows) and a 0.0 AVG come out as `None`. -/
def getQueueStatus (db : DB) : QueueStatus :=
  let countOf : String → Nat := fun s =>
    (db.jobs.filter (fun j => j.status == s)).length
  let ts := completedTimes db
  { total_jobs := db.jobs.length
    pending := countOf "pending"
    processing := countOf "processing"
    completed := countOf "completed"
    failed := countOf "failed"
    avg_processing_time_ms :=
      if ts.length = 0 then none
      else
        let a : ℚ := (ts.sum : ℚ) / (ts.length : ℚ)
        if a = 0 then none else some (pyRound a) }

/-- `status_snapshot` as a store operation: `get_queue_status` only runs
SELECTs, so the store state is returned unchanged. -/
def statusSnapshot (db : DB) : QueueStatus × DB :=
  (getQueueStatus db, db)

/-- The external world seen by `process_job`: the filesystem check
`os.path.exists` and the three backends.  A backend call either raises
(modelled as `.error` with the exception's message) or returns
`(output_text, model_name, processing_time_ms)`. -/
structure Env where
  fileExists : String → Bool
  transcribeLocal : String → Except String (String × String × Int)
  transcribeDeepgram : String → Except String (String × String × Int)
  summarizeTextBackend : String → Except String (String × String × Int)

/-- `transcribe_audio(file_path, provider)`: `deepgram` goes to the Deepgram
API, every other provider string falls through to the local Whisper backend
(the `else` branch). -/
def transcribeAudio (env : Env) (file_path provider : String) :
    Except String (String × String × Int) :=
  if provider = "deepgram" then env.transcribeDeepgram file_path
  else env.transcribeLocal file_path

/-- `json.loads(job['metadata']) if job.get('metadata') else {}`. -/
def jobMetadataDict (j : Job) : Json :=
  match j.metadata with
  | some m => m
  | none => .jobj []

/-- The `except` block of `process_job`: `fail_job(job_id, str(e))`, then,
when the job is bound to a submission,
`update_audio_submission_status(audio_file_id, 'failed', str(e))`.  The
binding guard is `if audio_file_id:` — Python truthiness — so both NULL and
the empty string skip the submission update. -/
def jobFailureCleanup (db : DB) (now : Nat) (job : Job) (e : String) : DB :=
  let db1 := failJob db now job.id e
  match job.audio_file_id with
  | some sid =>
    if sid = "" then db1
    else updateAudioSubmissionStatus db1 now sid "failed" (some e)
  | none => db1

/-- Metadata attached to an auto-chained summarize job:
`{'autoSummarize': True, 'sourceJobId': job_id}`. -/
def chainMetadata (source_job_id : Nat) : Json :=
  .jobj [("autoSummarize", .jbool true), ("sourceJobId", .jnum source_job_id)]

/-- `process_job(job)`: dispatch one claimed job.  The guards
`if not job['input_file_path']` / `if not job['input_text']` are Python
truthiness, so both NULL and the empty string raise.  Every raised exception
is caught by the single `except` handler (`jobFailureCleanup`).  Every
bound-to-submission step is guarded by `if audio_file_id:` — Python
truthiness again — so a NULL or empty-string `audio_file_id` skips the
submission status updates, the transcript/summary updates and the chain.
The auto-summarize chain fires on the truthiness of
`metadata.get('autoSummarize', False)`; the chained `create_job` uses the
literal type `summarize` and default provider `local`, so its CHECK
constraints always pass (the `none` arm mirrors the handler catching an
IntegrityError and is unreachable). -/
def processJob (env : Env) (db : DB) (now : Nat) (job : Job) : DB :=
  if job.job_type = "transcribe" then
    match job.input_file_path with
    | none => jobFailureCleanup db now job "No input file path for transcribe job"
    | some fp =>
      if fp = "" then
        jobFailureCleanup db now job "No input file path for transcribe job"
      else if env.fileExists fp = false then
        jobFailureCleanup db now job ("Audio file not found: " ++ fp)
      else
        let db1 :=
          match job.audio_file_id with
          | some sid =>
            if sid = "" then db
            else updateAudioSubmissionStatus db now sid "transcribing" none
          | none => db
        match transcribeAudio env fp job.provider with
        | .error e => jobFailureCleanup db1 now job e
        | .ok (output, model, time_ms) =>
          let db2 := completeJob db1 now job.id output model time_ms
          match job.audio_file_id with
          | none => db2
          | some sid =>
            if sid = "" then db2
            else
              let db3 := updateAudioSubmissionTranscript db2 now sid output job.id
              if jtruthyOpt (jlookup (jobMetadataDict job) "autoSummarize") then
                match createJob db3 now "summarize" "local" none (some output)
                    (some sid) (some (chainMetadata job.id)) with
                | some (_, db4) => db4
                | none => jobFailureCleanup db3 now job "CHECK constraint failed: jobs"
              else db3
  else if job.job_type = "summarize" then
    match job.input_text with
    | none => jobFailureCleanup db now job "No input text for summarize job"
    | some txt =>
      if txt = "" then
        jobFailureCleanup db now job "No input text for summarize job"
      else
        let db1 :=
          match job.audio_file_id with
          | some sid =>
            if sid = "" then db
            else updateAudioSubmissionStatus db now sid "summarizing" none
          | none => db
        match env.summarizeTextBackend txt with
        | .error e => jobFailureCleanup db1 now job e
        | .ok (output, model, time_ms) =>
          let db2 := completeJob db1 now job.id output model time_ms
          match job.audio_file_id with
          | none => db2
          | some sid =>
            if sid = "" then db2
            else updateAudioSubmissionSummary db2 now sid output job.id
  else
    jobFailureCleanup db now job ("Unknown job type: " ++ job.job_type)

/-- `status == 'pending'` as the Boolean filter used in queue-level
statements. -/
def isPending (j : Job) : Bool :=
  j.status == "pending"

/-- A sequence of `get_next_pending_job` calls, one per timestamp.  Each call
is a single atomic SQLite statement, so any concurrent execution of N claim
attempts serializes into such a sequence. -/
def claimRun : DB → List Nat → List (Option Job) × DB
  | db, [] => ([], db)
  | db, t :: ts =>
    let p := getNextPendingJob db t
    let q := claimRun p.2 ts
    (p.1 :: q.1, q.2)

/-! ### Concrete fixtures used by witnesses and counterexamples -/

/-- A job row template; fixtures override the relevant fields. -/
def baseJob : Job :=
  { id := 0
    job_type := "transcribe"
    status := "pending"
    provider := "local"
    input_file_path := none
    input_text := none
    output_text := none
    error_message := none
    audio_file_id := none
    metadata := none
    created_at := 0
    started_at := none
    completed_at := none
    processing_time_ms := none
    model_used := none }

/-- A submission row template. -/
def baseSub : Submission :=
  { id := "S"
    filename := "f.wav"
    original_filename := none
    file_path := "/up/f.wav"
    mime_type := none
    file_size := none
    duration_seconds := none
    transcript := none
    transcript_job_id := none
    transcribed_at := none
    summary := none
    summary_job_id := none
    summarized_at := none
    status := "pending"
    error_message := none
    metadata := none
    created_at := 0
    updated_at := 0 }

/-- An empty store. -/
def emptyDB : DB :=
  { jobs := [], submissions := [], next_job_id := 1 }

/-- An environment whose backends all succeed. -/
def env0 : Env :=
  { fileExists := fun _ => true
    transcribeLocal := fun _ => .ok ("hello world", "whisper-large-v3", 5)
    transcribeDeepgram := fun _ => .error "DEEPGRAM_API_KEY not set in environment"
    summarizeTextBackend := fun _ => .ok ("a summary", "llama3.1:8b", 7) }

/-- An environment whose summarization backend fails with "timeout". -/
def envTimeout : Env :=
  { env0 with summarizeTextBackend := fun _ => .error "timeout" }

/-- An environment whose summarization backend fails with an empty message
(e.g. `str(e)` of a bare exception). -/
def envEmptyErr : Env :=
  { env0 with summarizeTextBackend := fun _ => .error "" }

/-- A store with a single pending job. -/
def onePendingDB : DB :=
  { jobs := [{ baseJob with id := 1, created_at := 3, input_file_path := some "/a.wav" }]
    submissions := []
    next_job_id := 2 }

/-- A store with a single already-completed job. -/
def oneCompletedDB : DB :=
  { jobs := [{ baseJob with id := 1, status := "completed", output_text := some "x" }]
    submissions := []
    next_job_id := 2 }

/-- Two pending jobs enqueued at distinct timestamps. -/
def fifoJobA : Job := { baseJob with id := 1, created_at := 10 }

/-- The later of the two FIFO fixture jobs. -/
def fifoJobB : Job := { baseJob with id := 2, created_at := 20 }

/-- The FIFO fixture store. -/
def fifoDB : DB := { jobs := [fifoJobA, fifoJobB], submissions := [], next_job_id := 3 }

/-- The FIFO fixture store after the first claim (at time 30). -/
def fifoDB1 : DB :=
  { jobs := [claimUpdate 30 fifoJobA, fifoJobB], submissions := [], next_job_id := 3 }

/-- A claimed transcribe job bound to submission "S" with `autoSummarize = true`. -/
def chainJob : Job :=
  { baseJob with
    id := 1
    status := "processing"
    input_file_path := some "/a.wav"
    audio_file_id := some "S"
    metadata := some (.jobj [("autoSummarize", .jbool true)]) }

/-- The store holding `chainJob` and its submission. -/
def chainDB : DB :=
  { jobs := [chainJob]
    submissions := [{ baseSub with status := "transcribing" }]
    next_job_id := 2 }

/-- A claimed transcribe job whose `autoSummarize` value is the truthy
string `"false"`. -/
def truthyJob : Job :=
  { chainJob with metadata := some (.jobj [("autoSummarize", .jstr "false")]) }

/-- The store holding `truthyJob`. -/
def truthyDB : DB :=
  { chainDB with jobs := [truthyJob] }

/-- A claimed summarize job bound to submission "S". -/
def sumJob : Job :=
  { baseJob with
    id := 1
    job_type := "summarize"
    status := "processing"
    input_text := some "hello world"
    audio_file_id := some "S" }

/-- A submission that already holds a transcript and a stale error detail. -/
def priorSub : Submission :=
  { baseSub with status := "summarizing", transcript := some "t", error_message := some "old" }

/-- The store for the submission-failure fixtures. -/
def sumDB : DB :=
  { jobs := [sumJob], submissions := [priorSub], next_job_id := 2 }

/-- A claimed transcribe job carrying the out-of-domain provider
"nonexistent" (such a row cannot be inserted through `create_job`, but
`process_job` dispatches whatever row it is handed). -/
def nxJob : Job :=
  { baseJob with
    id := 1
    status := "processing"
    provider := "nonexistent"
    input_file_path := some "/a.wav" }

/-- The store holding `nxJob`. -/
def nxDB : DB := { jobs := [nxJob], submissions := [], next_job_id := 2 }

/-! ### Order and selection lemmas -/

/-- The claim order is reflexive in its non-strict form. -/
theorem keyLe_refl (a : Job) : keyLe a a := by
  unfold keyLe; omega

/-- Strict claim order implies non-strict. -/
theorem keyLe_of_keyLt {a b : Job} (h : keyLt a b) : keyLe a b := by
  unfold keyLt at h; unfold keyLe; omega

/-- Totality of the claim order. -/
theorem keyLe_of_not_keyLt {a b : Job} (h : ¬ keyLt a b) : keyLe b a := by
  unfold keyLt at h; unfold keyLe; omega

/-- Transitivity of the non-strict claim order. -/
theorem keyLe_trans {a b c : Job} (h1 : keyLe a b) (h2 : keyLe b c) : keyLe a c := by
  unfold keyLe at *; omega

/-- Non-strict order plus distinct ids gives strict order. -/
theorem keyLt_of_keyLe_of_id_ne {a b : Job} (h : keyLe a b) (hne : a.id ≠ b.id) :
    keyLt a b := by
  unfold keyLe at h; unfold keyLt; omega

/-- `pickMin` never discards both candidates. -/
theorem pickMin_ne_none (a : Job) (r : Option Job) : pickMin a r ≠ none := by
  cases r with
  | none => simp [pickMin]
  | some b => by_cases h : keyLt a b <;> simp [pickMin, h]

/-- The value picked by `pickMin` is one of its candidates. -/
theorem pickMin_cases {a c : Job} {r : Option Job} (h : pickMin a r = some c) :
    c = a ∨ r = some c := by
  cases r with
  | none =>
    simp [pickMin] at h
    exact Or.inl h.symm
  | some b =>
    by_cases hk : keyLt a b
    · simp [pickMin, hk] at h
      exact Or.inl h.symm
    · simp [pickMin, hk] at h
      exact Or.inr (by rw [h])

/-- The value picked by `pickMin` is a lower bound for both candidates. -/
theorem pickMin_le {a c : Job} {r : Option Job} (h : pickMin a r = some c) :
    keyLe c a ∧ ∀ b, r = some b → keyLe c b := by
  cases r with
  | none =>
    simp [pickMin] at h
    subst h
    exact ⟨keyLe_refl a, by intro b hb; cases hb⟩
  | some b =>
    by_cases hk : keyLt a b
    · simp [pickMin, hk] at h
      subst h
      refine ⟨keyLe_refl a, ?_⟩
      intro b' hb'
      cases hb'
      exact keyLe_of_keyLt hk
    · simp [pickMin, hk] at h
      subst h
      refine ⟨keyLe_of_not_keyLt hk, ?_⟩
      intro b' hb'
      cases hb'
      exact keyLe_refl _

/-- The SELECT finds nothing exactly when no row is pending. -/
theorem selectNextPending_eq_none {l : List Job} :
    selectNextPending l = none ↔ ∀ j ∈ l, j.status ≠ "pending" := by
  induction l with
  | nil => simp [selectNextPending]
  | cons a rest ih =>
    by_cases ha : a.status = "pending"
    · constructor
      · intro h
        simp only [selectNextPending, if_pos ha] at h
        exact absurd h (pickMin_ne_none a _)
      · intro h
        exact absurd ha (h a (List.mem_cons_self a rest))
    · constructor
      · intro h
        simp only [selectNextPending, if_neg ha] at h
        intro j hj
        rcases List.mem_cons.mp hj with rfl | hj'
        · exact ha
        · exact ih.mp h j hj'
      · intro h
        simp only [selectNextPending, if_neg ha]
        exact ih.mpr (fun j hj => h j (List.mem_cons_of_mem a hj))

/-- The selected row is a pending row of the table. -/
theorem selectNextPending_mem {l : List Job} :
    ∀ {c : Job}, selectNextPending l = some c → c ∈ l ∧ c.status = "pending" := by
  induction l with
  | nil => intro c h; simp [selectNextPending] at h
  | cons a rest ih =>
    intro c h
    by_cases ha : a.status = "pending"
    · simp only [selectNextPending, if_pos ha] at h
      rcases pickMin_cases h with rfl | hr
      · exact ⟨List.mem_cons_self _ _, ha⟩
      · obtain ⟨hc, hs⟩ := ih hr
        exact ⟨List.mem_cons_of_mem a hc, hs⟩
    · simp only [selectNextPending, if_neg ha] at h
      obtain ⟨hc, hs⟩ := ih h
      exact ⟨List.mem_cons_of_mem a hc, hs⟩

/-- The selected row is minimal in the claim order among all pending rows. -/
theorem selectNextPending_min {l : List Job} :
    ∀ {c : Job}, selectNextPending l = some c →
      ∀ k ∈ l, k.status = "pending" → keyLe c k := by
  induction l with
  | nil => intro c h; simp [selectNextPending] at h
  | cons a rest ih =>
    intro c h k hk hkp
    by_cases ha : a.status = "pending"
    · simp only [selectNextPending, if_pos ha] at h
      have hle := pickMin_le h
      rcases List.mem_cons.mp hk with rfl | hk'
      · exact hle.1
      · cases hr : selectNextPending rest with
        | none => exact absurd hkp (selectNextPending_eq_none.mp hr k hk')
        | some b => exact keyLe_trans (hle.2 b hr) (ih hr k hk' hkp)
    · simp only [selectNextPending, if_neg ha] at h
      rcases List.mem_cons.mp hk with rfl | hk'
      · exact absurd hkp ha
      · exact ih h k hk' hkp

/-! ### Helper lemmas about the store operations -/

/-- A map that fixes every element of a list is the identity. -/
theorem map_noop {l : List Job} {f : Job → Job} (h : ∀ j ∈ l, f j = j) :
    l.map f = l := by
  induction l with
  | nil => rfl
  | cons a rest ih =>
    rw [List.map_cons, h a (List.mem_cons_self a rest),
      ih (fun j hj => h j (List.mem_cons_of_mem a hj))]

/-- A store with no pending job is left untouched by a claim attempt. -/
theorem getNextPendingJob_no_pending {db : DB} (h : db.jobs.filter isPending = [])
    (t : Nat) : getNextPendingJob db t = (none, db) := by
  have hsel : selectNextPending db.jobs = none := by
    refine selectNextPending_eq_none.mpr ?_
    intro j hj hp
    have hmem : j ∈ db.jobs.filter isPending :=
      List.mem_filter.mpr ⟨hj, by simp [isPending, hp]⟩
    rw [h] at hmem
    cases hmem
  simp [getNextPendingJob, hsel]

/-! ### C9 -/

/-- C9: for a job id absent from the jobs table, `complete_job` and
`fail_job` are silent no-ops — the UPDATE matches zero rows, no error is
raised, and no row is created or modified. -/
theorem terminal_update_missing_id_noop (db : DB) (now job_id : Nat)
    (o m e : String) (t : Int) (h : ∀ j ∈ db.jobs, j.id ≠ job_id) :
    completeJob db now job_id o m t = db ∧ failJob db now job_id e = db := by
  constructor
  · unfold completeJob
    rw [map_noop (fun j hj => if_neg (h j hj))]
  · unfold failJob
    rw [map_noop (fun j hj => if_neg (h j hj))]

/-- Witness for C9 at a concrete store and an absent id. -/
theorem terminal_update_missing_id_noop_witness :
    (∀ j ∈ onePendingDB.jobs, j.id ≠ 2) ∧
    completeJob onePendingDB 9 2 "o" "m" 4 = onePendingDB ∧
    failJob onePendingDB 9 2 "e" = onePendingDB :=
  have h : ∀ j ∈ onePendingDB.jobs, j.id ≠ 2 := by decide
  ⟨h, (terminal_update_missing_id_noop onePendingDB 9 2 "o" "m" "e" 4 h).1,
    (terminal_update_missing_id_noop onePendingDB 9 2 "o" "m" "e" 4 h).2⟩

/-! ### C2 -/

/-- C2 counterexample: `fail_job` on an already-`completed` job does not
fail with `InvalidStateTransition` and does not leave the row unchanged —
it overwrites the terminal state. -/
theorem completed_job_overwritten_by_fail :
    oneCompletedDB.jobs.map Job.status = ["completed"] ∧
    (failJob oneCompletedDB 9 1 "boom").jobs.map Job.status = ["failed"] ∧
    (failJob oneCompletedDB 9 1 "boom").jobs.map Job.error_message = [some "boom"] :=
  ⟨rfl, rfl, rfl⟩

/-- C2 (amended): `complete_job` and `fail_job` apply their UPDATE to the
row with the given id unconditionally — there is no status precondition and
no `InvalidStateTransition` error, so a job in any state (including a
terminal one) is moved to `completed` resp. `failed`. -/
theorem terminal_update_unconditional (db : DB) (now job_id : Nat)
    (o m e : String) (t : Int) (j : Job) (hj : j ∈ db.jobs) (hid : j.id = job_id) :
    ({ j with
        status := "completed"
        output_text := some o
        model_used := some m
        processing_time_ms := some t
        completed_at := some now } : Job) ∈ (completeJob db now job_id o m t).jobs ∧
    ({ j with
        status := "failed"
        error_message := some e
        completed_at := some now } : Job) ∈ (failJob db now job_id e).jobs := by
  constructor
  · have h2 := List.mem_map_of_mem
      (fun k : Job =>
        if k.id = job_id then
          { k with
            status := "completed"
            output_text := some o
            model_used := some m
            processing_time_ms := some t
            completed_at := some now }
        else k) hj
    simpa [completeJob, hid] using h2
  · have h2 := List.mem_map_of_mem
      (fun k : Job =>
        if k.id = job_id then
          { k with
            status := "failed"
            error_message := some e
            completed_at := some now }
        else k) hj
    simpa [failJob, hid] using h2

/-- Witness for C2's amended theorem: a `completed` row is overwritten. -/
theorem terminal_update_unconditional_witness :
    (({ baseJob with id := 1, status := "completed", output_text := some "x" } : Job) ∈
      oneCompletedDB.jobs) ∧
    (({ ({ baseJob with id := 1, status := "completed", output_text := some "x" } : Job) with
        status := "failed"
        error_message := some "boom"
        completed_at := some 9 } : Job) ∈
      (failJob oneCompletedDB 9 1 "boom").jobs) :=
  have hj : ({ baseJob with id := 1, status := "completed", output_text := some "x" } : Job) ∈
      oneCompletedDB.jobs := List.mem_cons_self _ _
  ⟨hj, (terminal_update_unconditional oneCompletedDB 9 1 "o" "m" "boom" 4 _ hj rfl).2⟩

/-! ### C5 -/

/-- C5 counterexample: a `transcribe` job with no media locator, and a
`summarize` job with no text, are both accepted by `create_job` — no
`InvalidJobSpec` — and persisted as `pending` rows. -/
theorem create_job_persists_invalid_transcribe :
    (createJob emptyDB 0 "transcribe" "local" none none none none).map
        (fun p => (p.1, p.2.jobs.map (fun j => (j.status, j.input_file_path, j.input_text)))) =
      some (1, [("pending", none, none)]) ∧
    (createJob emptyDB 0 "summarize" "local" none none none none).map
        (fun p => (p.1, p.2.jobs.map (fun j => (j.status, j.input_file_path, j.input_text)))) =
      some (1, [("pending", none, none)]) :=
  ⟨rfl, rfl⟩

/-- C5 (amended): `create_job` performs no validation of the input fields —
any combination of (possibly missing) media locator and text is accepted
for either kind, and the row is always created in `pending` status; only the
store CHECK constraints on kind and provider can refuse the insert. -/
theorem create_job_accepts_missing_input (db : DB) (now : Nat) (ty pv : String)
    (hty : jobTypeOk ty = true) (hpv : providerOk pv = true)
    (fp txt sid : Option String) (md : Option Json) :
    createJob db now ty pv fp txt sid md =
      some (db.next_job_id,
        { db with
          jobs := db.jobs ++ [newJobRow db.next_job_id now ty pv fp txt sid md]
          next_job_id := db.next_job_id + 1 }) ∧
    (newJobRow db.next_job_id now ty pv fp txt sid md).status = "pending" := by
  constructor
  · unfold createJob
    rw [hty, hpv]
    rfl
  · rfl

/-- Witness for C5's amended theorem at a transcribe job with no input. -/
theorem create_job_accepts_missing_input_witness :
    jobTypeOk "transcribe" = true ∧ providerOk "local" = true ∧
    (createJob emptyDB 7 "transcribe" "local" none none none none =
      some (emptyDB.next_job_id,
        { emptyDB with
          jobs := emptyDB.jobs ++
            [newJobRow emptyDB.next_job_id 7 "transcribe" "local" none none none none]
          next_job_id := emptyDB.next_job_id + 1 }) ∧
      (newJobRow emptyDB.next_job_id 7 "transcribe" "local" none none none none).status =
        "pending") :=
  ⟨rfl, rfl,
    create_job_accepts_missing_input emptyDB 7 "transcribe" "local" rfl rfl none none none none⟩

/-! ### C8 -/

/-- C8: `status_snapshot` is a pure read of the store state: it performs no
writes (the store state it returns is the one it was given), so two calls
with no intervening writes return identical aggregates. -/
theorem status_snapshot_idempotent (db : DB) :
    (statusSnapshot db).2 = db ∧
    (statusSnapshot (statusSnapshot db).2).1 = (statusSnapshot db).1 :=
  ⟨rfl, rfl⟩

/-! ### C4 -/

/-- C4 counterexample: dispatching a claimed `transcribe` job whose provider
is "nonexistent" does not fail with `UnknownProvider` — the local backend is
invoked and the job completes with its output. -/
theorem nonexistent_provider_completes_via_local :
    (processJob env0 nxDB 9 nxJob).jobs.map
        (fun j => (j.status, j.output_text, j.model_used)) =
      [("completed", some "hello world", some "whisper-large-v3")] :=
  rfl

/-- C4 (amended): there is no `UnknownProvider` outcome. `transcribe_audio`
falls back to the local backend for every provider other than "deepgram"
(so an unregistered provider silently invokes local Whisper); an
out-of-domain provider string such as "nonexistent" is instead rejected at
insert time by the jobs-table CHECK constraint. -/
theorem unknown_provider_falls_back_to_local (env : Env) (fp pv : String)
    (hpv : pv ≠ "deepgram") :
    transcribeAudio env fp pv = env.transcribeLocal fp ∧
    ∀ (db : DB) (now : Nat) (fpath txt sid : Option String) (md : Option Json),
      createJob db now "transcribe" "nonexistent" fpath txt sid md = none := by
  constructor
  · unfold transcribeAudio
    rw [if_neg hpv]
  · intro db now fpath txt sid md
    rfl

/-- Witness for C4's amended theorem at provider "nonexistent". -/
theorem unknown_provider_falls_back_to_local_witness :
    ("nonexistent" : String) ≠ "deepgram" ∧
    transcribeAudio env0 "/a.wav" "nonexistent" = env0.transcribeLocal "/a.wav" ∧
    createJob emptyDB 0 "transcribe" "nonexistent" none none none none = none :=
  have h : ("nonexistent" : String) ≠ "deepgram" := by decide
  ⟨h, (unknown_provider_falls_back_to_local env0 "/a.wav" "nonexistent" h).1,
    (unknown_provider_falls_back_to_local env0 "/a.wav" "nonexistent" h).2
      emptyDB 0 none none none none⟩

/-! ### C1 -/

/-- C1 counterexample: the claim returns the row as updated by the
transition (`RETURNING *` yields post-UPDATE values), not the pre-transition
row contents — the returned status is `processing`, not the pre-transition
`pending`, and the start timestamp is already set. -/
theorem claim_next_returns_updated_row :
    onePendingDB.jobs.map Job.status = ["pending"] ∧
    (getNextPendingJob onePendingDB 5).1.map Job.status = some "processing" ∧
    (getNextPendingJob onePendingDB 5).1.map Job.started_at = some (some 5) :=
  ⟨rfl, rfl, rfl⟩

/-- C1 (amended): `claim_next` selects the pending job with the oldest
creation time (ties broken by ascending identifier), atomically transitions
it to `processing` with a start timestamp, and returns the claimed row's
contents as updated by that transition (all pre-transition fields except the
status, which reads `processing`, and the newly set start timestamp); if no
pending job exists it returns none without side effects; consequently
successive claims return jobs in strictly increasing claim order, hence in
enqueue order for distinct creation timestamps. -/
theorem claim_next_oldest_pending_fifo (db : DB) (t t' : Nat) :
    (db.jobs.filter isPending = [] → getNextPendingJob db t = (none, db)) ∧
    (∀ j', (getNextPendingJob db t).1 = some j' →
      ∃ j, j ∈ db.jobs ∧ j.status = "pending" ∧ j' = claimUpdate t j ∧
        (∀ k ∈ db.jobs, k.status = "pending" → keyLe j k) ∧
        (getNextPendingJob db t).2 =
          { db with
            jobs := db.jobs.map (fun k => if k.id = j.id then claimUpdate t k else k) }) ∧
    (∀ j1 j2 db1, getNextPendingJob db t = (some j1, db1) →
      (getNextPendingJob db1 t').1 = some j2 → keyLt j1 j2) := by
  refine ⟨fun h => getNextPendingJob_no_pending h t, ?_, ?_⟩
  · intro j' h
    cases hsel : selectNextPending db.jobs with
    | none =>
      simp only [getNextPendingJob, hsel] at h
      cases h
    | some j =>
      obtain ⟨hjmem, hjp⟩ := selectNextPending_mem hsel
      refine ⟨j, hjmem, hjp, ?_, ?_, ?_⟩
      · simp only [getNextPendingJob, hsel] at h
        exact (Option.some.inj h).symm
      · exact fun k hk hkp => selectNextPending_min hsel k hk hkp
      · simp only [getNextPendingJob, hsel]
  · intro j1 j2 db1 h1 h2
    cases hsel : selectNextPending db.jobs with
    | none =>
      simp only [getNextPendingJob, hsel, Prod.mk.injEq] at h1
      cases h1.1
    | some j =>
      simp only [getNextPendingJob, hsel, Prod.mk.injEq] at h1
      obtain ⟨h1a, h1b⟩ := h1
      cases hsel2 : selectNextPending db1.jobs with
      | none =>
        simp only [getNextPendingJob, hsel2] at h2
        cases h2
      | some k2 =>
        simp only [getNextPendingJob, hsel2] at h2
        obtain ⟨hk2mem, hk2p⟩ := selectNextPending_mem hsel2
        have hjobs : db1.jobs =
            db.jobs.map (fun k => if k.id = j.id then claimUpdate t k else k) := by
          rw [← h1b]
        rw [hjobs] at hk2mem
        obtain ⟨k, hkmem, hfk⟩ := List.mem_map.mp hk2mem
        by_cases hid : k.id = j.id
        · rw [if_pos hid] at hfk
          rw [← hfk] at hk2p
          simp [claimUpdate] at hk2p
        · rw [if_neg hid] at hfk
          have hle : keyLe j k2 := by
            refine selectNextPending_min hsel k2 ?_ hk2p
            rw [← hfk]
            exact hkmem
          have hne : j.id ≠ k2.id := by
            rw [← hfk]
            exact fun hjk => hid hjk.symm
          have hlt : keyLt j k2 := keyLt_of_keyLe_of_id_ne hle (fun hjk => hne hjk)
          rw [← Option.some.inj h1a, ← Option.some.inj h2]
          simpa [claimUpdate, keyLt] using hlt

/-- Witness for C1's amended theorem: two pending jobs with distinct
creation times are claimed in enqueue order. -/
theorem claim_next_oldest_pending_fifo_witness :
    getNextPendingJob fifoDB 30 = (some (claimUpdate 30 fifoJobA), fifoDB1) ∧
    (getNextPendingJob fifoDB1 31).1 = some (claimUpdate 31 fifoJobB) ∧
    keyLt (claimUpdate 30 fifoJobA) (claimUpdate 31 fifoJobB) :=
  have h1 : getNextPendingJob fifoDB 30 = (some (claimUpdate 30 fifoJobA), fifoDB1) := rfl
  have h2 : (getNextPendingJob fifoDB1 31).1 = some (claimUpdate 31 fifoJobB) := rfl
  ⟨h1, h2, (claim_next_oldest_pending_fifo fifoDB 30 31).2.2 _ _ fifoDB1 h1 h2⟩

/-! ### C7 -/

/-- On a store with no pending job, a run of claim attempts returns only
none and never changes the store. -/
theorem claimRun_no_pending {db : DB} (h : db.jobs.filter isPending = []) :
    ∀ ts : List Nat, claimRun db ts = (ts.map (fun _ => none), db) := by
  intro ts
  induction ts with
  | nil => rfl
  | cons t ts ih =>
    simp only [claimRun, getNextPendingJob_no_pending h t, ih, List.map_cons]

/-- Claiming from a store whose only pending job is unique empties the
pending set. -/
theorem claim_from_single_pending {db : DB} (t : Nat)
    (h1 : (db.jobs.filter isPending).length = 1) :
    ∃ j' db', getNextPendingJob db t = (some j', db') ∧
      db'.jobs.filter isPending = [] := by
  obtain ⟨x, hx⟩ := List.length_eq_one.mp h1
  cases hsel : selectNextPending db.jobs with
  | none =>
    have hxmem : x ∈ db.jobs.filter isPending := by
      rw [hx]
      exact List.mem_cons_self _ _
    obtain ⟨hxm, hxp⟩ := List.mem_filter.mp hxmem
    have hxs : x.status = "pending" := by simpa [isPending] using hxp
    exact absurd hxs (selectNextPending_eq_none.mp hsel x hxm)
  | some j =>
    obtain ⟨hjmem, hjp⟩ := selectNextPending_mem hsel
    have hjfil : j ∈ db.jobs.filter isPending :=
      List.mem_filter.mpr ⟨hjmem, by simp [isPending, hjp]⟩
    have hfil : db.jobs.filter isPending = [j] := by
      rw [hx] at hjfil ⊢
      rw [List.mem_singleton.mp hjfil]
    refine ⟨claimUpdate t j,
      { db with jobs := db.jobs.map (fun k => if k.id = j.id then claimUpdate t k else k) },
      by simp only [getNextPendingJob, hsel], ?_⟩
    rw [List.filter_eq_nil_iff]
    intro a ha
    obtain ⟨k, hkmem, hfk⟩ := List.mem_map.mp ha
    by_cases hid : k.id = j.id
    · rw [if_pos hid] at hfk
      rw [← hfk]
      simp [isPending, claimUpdate]
    · rw [if_neg hid] at hfk
      intro hpa
      have hafil : a ∈ db.jobs.filter isPending := by
        refine List.mem_filter.mpr ⟨?_, hpa⟩
        rw [← hfk]
        exact hkmem
      rw [hfil, List.mem_singleton] at hafil
      exact hid (by rw [hfk, hafil])

/-- Filtering the all-none results of an exhausted claim run gives nothing. -/
theorem filter_isSome_map_none (ts : List Nat) :
    (ts.map (fun _ => (none : Option Job))).filter Option.isSome = [] := by
  induction ts with
  | nil => rfl
  | cons t ts ih => simp [ih]

/-- C7: against a store whose pending set has exactly one job, any sequence
of claim attempts (each claim being one atomic SQLite statement, concurrent
attempts serialize into such a sequence) hands the job to exactly one
attempt; all others receive none. -/
theorem exactly_one_claim_per_pending_job (db : DB) (t : Nat) (ts : List Nat)
    (h1 : (db.jobs.filter isPending).length = 1) :
    ((claimRun db (t :: ts)).1.filter Option.isSome).length = 1 := by
  obtain ⟨j', db', heq, hempty⟩ := claim_from_single_pending t h1
  have hrest := claimRun_no_pending hempty ts
  simp only [claimRun, heq, hrest]
  simp [List.filter_cons, filter_isSome_map_none ts]

/-- Witness for C7 at a concrete store with one pending job and three claim
attempts. -/
theorem exactly_one_claim_per_pending_job_witness :
    (onePendingDB.jobs.filter isPending).length = 1 ∧
    ((claimRun onePendingDB [4, 5, 6]).1.filter Option.isSome).length = 1 :=
  ⟨rfl, exactly_one_claim_per_pending_job onePendingDB 4 [5, 6] rfl⟩

/-! ### The successful-transcribe path of `process_job` -/

/-- Normal form of `process_job` on a transcribe job bound to a submission
(a truthy, i.e. nonempty, `audio_file_id` — the `if audio_file_id:` guard)
when the file exists and the backend succeeds: job completed, submission
moved to `transcribing` then updated with the transcript, and — exactly when
`metadata.get('autoSummarize', False)` is truthy — one chained summarize job
appended. -/
theorem processJob_transcribe_ok_eq (env : Env) (db : DB) (now : Nat) (job : Job)
    (fp sid output model : String) (tms : Int)
    (hty : job.job_type = "transcribe")
    (hfp : job.input_file_path = some fp) (hfp0 : fp ≠ "")
    (hex : env.fileExists fp = true)
    (hsid : job.audio_file_id = some sid) (hsid0 : sid ≠ "")
    (hok : transcribeAudio env fp job.provider = .ok (output, model, tms)) :
    processJob env db now job =
      (let db3 : DB :=
        { jobs :=
            db.jobs.map (fun k =>
              if k.id = job.id then
                { k with
                  status := "completed"
                  output_text := some output
                  model_used := some model
                  processing_time_ms := some tms
                  completed_at := some now }
              else k)
          submissions :=
            (db.submissions.map (fun s =>
              if s.id = sid then { s with status := "transcribing", updated_at := now }
              else s)).map (fun s =>
                if s.id = sid then
                  { s with
                    transcript := some output
                    transcript_job_id := some job.id
                    transcribed_at := some now
                    status := "summarizing"
                    updated_at := now }
                else s)
          next_job_id := db.next_job_id }
       if jtruthyOpt (jlookup (jobMetadataDict job) "autoSummarize") then
         { db3 with
           jobs := db3.jobs ++
             [newJobRow db.next_job_id now "summarize" "local" none (some output)
               (some sid) (some (chainMetadata job.id))]
           next_job_id := db.next_job_id + 1 }
       else db3) := by
  have hcheck : (jobTypeOk "summarize" && providerOk "local") = true := rfl
  simp only [processJob, hty, hfp, hsid, hok, hex]
  simp [hfp0, hsid0, createJob, hcheck, completeJob, updateAudioSubmissionStatus,
    updateAudioSubmissionTranscript, strTruthy]

/-- The successful-transcribe path when the auto-summarize flag is truthy:
one chained summarize job is appended. -/
theorem processJob_transcribe_chain_eq (env : Env) (db : DB) (now : Nat) (job : Job)
    (fp sid output model : String) (tms : Int)
    (hty : job.job_type = "transcribe")
    (hfp : job.input_file_path = some fp) (hfp0 : fp ≠ "")
    (hex : env.fileExists fp = true)
    (hsid : job.audio_file_id = some sid) (hsid0 : sid ≠ "")
    (hok : transcribeAudio env fp job.provider = .ok (output, model, tms))
    (hcond : jtruthyOpt (jlookup (jobMetadataDict job) "autoSummarize") = true) :
    processJob env db now job =
      { jobs :=
          db.jobs.map (fun k =>
            if k.id = job.id then
              { k with
                status := "completed"
                output_text := some output
                model_used := some model
                processing_time_ms := some tms
                completed_at := some now }
            else k) ++
          [newJobRow db.next_job_id now "summarize" "local" none (some output)
            (some sid) (some (chainMetadata job.id))]
        submissions :=
          (db.submissions.map (fun s =>
            if s.id = sid then { s with status := "transcribing", updated_at := now }
            else s)).map (fun s =>
              if s.id = sid then
                { s with
                  transcript := some output
                  transcript_job_id := some job.id
                  transcribed_at := some now
                  status := "summarizing"
                  updated_at := now }
              else s)
        next_job_id := db.next_job_id + 1 } := by
  rw [processJob_transcribe_ok_eq env db now job fp sid output model tms
    hty hfp hfp0 hex hsid hsid0 hok]
  rw [hcond]
  rfl

/-- The successful-transcribe path when the auto-summarize flag is falsy:
no job is created. -/
theorem processJob_transcribe_nochain_eq (env : Env) (db : DB) (now : Nat) (job : Job)
    (fp sid output model : String) (tms : Int)
    (hty : job.job_type = "transcribe")
    (hfp : job.input_file_path = some fp) (hfp0 : fp ≠ "")
    (hex : env.fileExists fp = true)
    (hsid : job.audio_file_id = some sid) (hsid0 : sid ≠ "")
    (hok : transcribeAudio env fp job.provider = .ok (output, model, tms))
    (hcond : jtruthyOpt (jlookup (jobMetadataDict job) "autoSummarize") = false) :
    processJob env db now job =
      { jobs :=
          db.jobs.map (fun k =>
            if k.id = job.id then
              { k with
                status := "completed"
                output_text := some output
                model_used := some model
                processing_time_ms := some tms
                completed_at := some now }
            else k)
        submissions :=
          (db.submissions.map (fun s =>
            if s.id = sid then { s with status := "transcribing", updated_at := now }
            else s)).map (fun s =>
              if s.id = sid then
                { s with
                  transcript := some output
                  transcript_job_id := some job.id
                  transcribed_at := some now
                  status := "summarizing"
                  updated_at := now }
              else s)
        next_job_id := db.next_job_id } := by
  rw [processJob_transcribe_ok_eq env db now job fp sid output model tms
    hty hfp hfp0 hex hsid hsid0 hok]
  rw [hcond]
  rfl

/-! ### C3 -/

/-- C3: completing a transcribe job bound to submission S (binding means a
truthy `audio_file_id`, hence a nonempty id, per the `if audio_file_id:`
guard) whose metadata carries `autoSummarize = true` appends exactly one new
job — a `pending` `summarize` job whose input text is the produced
transcript, bound to S, with auto-chained metadata referencing the source
job id — and the enqueue happens after the job is terminal and after S's
transcript update, so in the resulting store (whose submissions the chained
insert did not touch) S is `summarizing` with the transcript recorded. -/
theorem auto_summarize_chaining (env : Env) (db : DB) (now : Nat) (job : Job)
    (fp sid output model : String) (tms : Int)
    (hty : job.job_type = "transcribe")
    (hfp : job.input_file_path = some fp) (hfp0 : fp ≠ "")
    (hex : env.fileExists fp = true)
    (hsid : job.audio_file_id = some sid) (hsid0 : sid ≠ "")
    (hok : transcribeAudio env fp job.provider = .ok (output, model, tms))
    (hauto : jlookup (jobMetadataDict job) "autoSummarize" = some (.jbool true)) :
    (processJob env db now job).jobs =
      db.jobs.map (fun k =>
        if k.id = job.id then
          { k with
            status := "completed"
            output_text := some output
            model_used := some model
            processing_time_ms := some tms
            completed_at := some now }
        else k) ++
      [newJobRow db.next_job_id now "summarize" "local" none (some output)
        (some sid) (some (chainMetadata job.id))] ∧
    (newJobRow db.next_job_id now "summarize" "local" none (some output)
        (some sid) (some (chainMetadata job.id))).status = "pending" ∧
    (newJobRow db.next_job_id now "summarize" "local" none (some output)
        (some sid) (some (chainMetadata job.id))).job_type = "summarize" ∧
    (newJobRow db.next_job_id now "summarize" "local" none (some output)
        (some sid) (some (chainMetadata job.id))).input_text = some output ∧
    (newJobRow db.next_job_id now "summarize" "local" none (some output)
        (some sid) (some (chainMetadata job.id))).audio_file_id = some sid ∧
    (newJobRow db.next_job_id now "summarize" "local" none (some output)
        (some sid) (some (chainMetadata job.id))).metadata =
      some (chainMetadata job.id) ∧
    (∀ s ∈ (processJob env db now job).submissions, s.id = sid →
      s.status = "summarizing" ∧ s.transcript = some output ∧
      s.transcript_job_id = some job.id) := by
  have hcond : jtruthyOpt (jlookup (jobMetadataDict job) "autoSummarize") = true := by
    rw [hauto]
    rfl
  have hP := processJob_transcribe_chain_eq env db now job fp sid output model tms
    hty hfp hfp0 hex hsid hsid0 hok hcond
  refine ⟨by rw [hP], rfl, rfl, rfl, rfl, rfl, ?_⟩
  intro s hs hsid2
  rw [hP] at hs
  obtain ⟨s1, hs1mem, hg2⟩ := List.mem_map.mp hs
  obtain ⟨s0, hs0mem, hg1⟩ := List.mem_map.mp hs1mem
  by_cases h0 : s0.id = sid
  · rw [if_pos h0] at hg1
    have h1 : s1.id = sid := by
      rw [← hg1]
      exact h0
    rw [if_pos h1] at hg2
    rw [← hg2]
    exact ⟨rfl, rfl, rfl⟩
  · rw [if_neg h0] at hg1
    have h1 : s1.id ≠ sid := by
      rw [← hg1]
      exact h0
    rw [if_neg h1] at hg2
    rw [← hg2, ← hg1] at hsid2
    exact absurd hsid2 h0

/-- Witness for C3 at a concrete store: completing the transcribe job with
output "hello world" chains one pending summarize job and records the
transcript on the submission. -/
theorem auto_summarize_chaining_witness :
    chainJob.job_type = "transcribe" ∧
    chainJob.input_file_path = some "/a.wav" ∧
    chainJob.audio_file_id = some "S" ∧
    transcribeAudio env0 "/a.wav" chainJob.provider =
      .ok ("hello world", "whisper-large-v3", 5) ∧
    jlookup (jobMetadataDict chainJob) "autoSummarize" = some (.jbool true) ∧
    (processJob env0 chainDB 50 chainJob).jobs =
      chainDB.jobs.map (fun k =>
        if k.id = chainJob.id then
          { k with
            status := "completed"
            output_text := some "hello world"
            model_used := some "whisper-large-v3"
            processing_time_ms := some 5
            completed_at := some 50 }
        else k) ++
      [newJobRow chainDB.next_job_id 50 "summarize" "local" none (some "hello world")
        (some "S") (some (chainMetadata chainJob.id))] :=
  ⟨rfl, rfl, rfl, rfl, rfl,
    (auto_summarize_chaining env0 chainDB 50 chainJob "/a.wav" "S" "hello world"
      "whisper-large-v3" 5 rfl rfl (by decide) rfl rfl (by decide) rfl rfl).1⟩

/-! ### C10 -/

/-- C10: the auto-summarize chaining condition is Python truthiness of
`metadata.get('autoSummarize', False)`, not equality with `true`: a
successfully completed transcribe job bound to a submission (a truthy,
nonempty `audio_file_id`) chains exactly when that value is truthy — so a
nonzero number or the nonempty string "false" trigger the chain, while a
missing key, `false`, `0`, or an absent metadata payload do not. -/
theorem chaining_uses_truthiness (env : Env) (db : DB) (now : Nat) (job : Job)
    (fp sid output model : String) (tms : Int)
    (hty : job.job_type = "transcribe")
    (hfp : job.input_file_path = some fp) (hfp0 : fp ≠ "")
    (hex : env.fileExists fp = true)
    (hsid : job.audio_file_id = some sid) (hsid0 : sid ≠ "")
    (hok : transcribeAudio env fp job.provider = .ok (output, model, tms)) :
    (processJob env db now job).jobs.length =
      db.jobs.length +
        (if jtruthyOpt (jlookup (jobMetadataDict job) "autoSummarize") then 1 else 0) ∧
    jtruthy (.jnum 2) = true ∧
    jtruthy (.jstr "false") = true ∧
    jtruthy (.jbool false) = false ∧
    jtruthy (.jnum 0) = false ∧
    jtruthyOpt none = false ∧
    jobMetadataDict { job with metadata := none } = .jobj [] := by
  refine ⟨?_, rfl, rfl, rfl, rfl, rfl, rfl⟩
  cases hcond : jtruthyOpt (jlookup (jobMetadataDict job) "autoSummarize") with
  | true =>
    rw [processJob_transcribe_chain_eq env db now job fp sid output model tms
      hty hfp hfp0 hex hsid hsid0 hok hcond]
    simp
  | false =>
    rw [processJob_transcribe_nochain_eq env db now job fp sid output model tms
      hty hfp hfp0 hex hsid hsid0 hok hcond]
    simp

/-- Witness for C10: the string "false" is truthy, so it does trigger the
chain — the store ends with two jobs. -/
theorem chaining_uses_truthiness_witness :
    truthyJob.metadata = some (.jobj [("autoSummarize", .jstr "false")]) ∧
    (processJob env0 truthyDB 50 truthyJob).jobs.length =
      truthyDB.jobs.length +
        (if jtruthyOpt (jlookup (jobMetadataDict truthyJob) "autoSummarize") then 1
         else 0) ∧
    (processJob env0 truthyDB 50 truthyJob).jobs.length = 2 :=
  have h := (chaining_uses_truthiness env0 truthyDB 50 truthyJob "/a.wav" "S"
    "hello world" "whisper-large-v3" 5 rfl rfl (by decide) rfl rfl (by decide) rfl).1
  ⟨rfl, h, h⟩

/-! ### The failing-summarize path of `process_job` -/

/-- Normal form of `process_job` on a summarize job bound to a submission
(truthy, nonempty `audio_file_id`) when the backend fails with a nonempty
message: the job is failed and the submission — first moved to
`summarizing` — is marked `failed` with the error copied in. -/
theorem processJob_summarize_err_eq (env : Env) (db : DB) (now : Nat) (job : Job)
    (sid txt e : String)
    (hty : job.job_type = "summarize")
    (hin : job.input_text = some txt) (htxt : txt ≠ "")
    (hsid : job.audio_file_id = some sid) (hsid0 : sid ≠ "")
    (hbk : env.summarizeTextBackend txt = .error e)
    (he : e ≠ "") :
    processJob env db now job =
      { jobs :=
          db.jobs.map (fun j =>
            if j.id = job.id then
              { j with
                status := "failed"
                error_message := some e
                completed_at := some now }
            else j)
        submissions :=
          (db.submissions.map (fun s =>
            if s.id = sid then { s with status := "summarizing", updated_at := now }
            else s)).map (fun s =>
              if s.id = sid then
                { s with status := "failed", error_message := some e, updated_at := now }
              else s)
        next_job_id := db.next_job_id } := by
  simp only [processJob, hty, hin, hsid, hbk]
  simp [htxt, he, hsid, hsid0, jobFailureCleanup, failJob, updateAudioSubmissionStatus,
    strTruthy]

/-! ### C6 -/

/-- C6 (amended): when a job bound to submission S (a truthy, nonempty
`audio_file_id`, per the `if audio_file_id:` guard) fails, S's status is set
to `failed` unconditionally — regardless of S's prior status, transcript, or
error detail — and S's error detail is set to the job's error message
whenever that message is nonempty; an empty error message leaves S's prior
error detail in place (`if error_message:` truthiness). -/
theorem job_failure_fails_submission (env : Env) (db : DB) (now : Nat) (job : Job)
    (sid txt e : String)
    (hsid : job.audio_file_id = some sid) (hsid0 : sid ≠ "") (he : e ≠ "") :
    (∀ db2 : DB, ∀ s ∈ (jobFailureCleanup db2 now job e).submissions, s.id = sid →
      s.status = "failed" ∧ s.error_message = some e) ∧
    (job.job_type = "summarize" → job.input_text = some txt → txt ≠ "" →
      env.summarizeTextBackend txt = .error e →
      ∀ s ∈ (processJob env db now job).submissions, s.id = sid →
        s.status = "failed" ∧ s.error_message = some e) := by
  constructor
  · intro db2 s hs hsid2
    have hsub : (jobFailureCleanup db2 now job e).submissions =
        db2.submissions.map (fun s =>
          if s.id = sid then
            { s with status := "failed", error_message := some e, updated_at := now }
          else s) := by
      simp [jobFailureCleanup, hsid, hsid0, failJob, updateAudioSubmissionStatus, strTruthy, he]
    rw [hsub] at hs
    obtain ⟨s0, hs0, hup⟩ := List.mem_map.mp hs
    by_cases h0 : s0.id = sid
    · rw [if_pos h0] at hup
      rw [← hup]
      exact ⟨rfl, rfl⟩
    · rw [if_neg h0] at hup
      rw [← hup] at hsid2
      exact absurd hsid2 h0
  · intro hty hin htxt hbk s hs hsid2
    rw [processJob_summarize_err_eq env db now job sid txt e hty hin htxt hsid hsid0 hbk
      he] at hs
    obtain ⟨s1, hs1mem, hg2⟩ := List.mem_map.mp hs
    obtain ⟨s0, hs0mem, hg1⟩ := List.mem_map.mp hs1mem
    by_cases h0 : s0.id = sid
    · rw [if_pos h0] at hg1
      have h1 : s1.id = sid := by
        rw [← hg1]
        exact h0
      rw [if_pos h1] at hg2
      rw [← hg2]
      exact ⟨rfl, rfl⟩
    · rw [if_neg h0] at hg1
      have h1 : s1.id ≠ sid := by
        rw [← hg1]
        exact h0
      rw [if_neg h1] at hg2
      rw [← hg2, ← hg1] at hsid2
      exact absurd hsid2 h0

/-- C6 counterexample: a summarize job bound to S fails with an empty error
message; S's status becomes `failed` but S's error detail keeps its prior
value "old" instead of the job's error message — the copy is conditional on
the message's truthiness. -/
theorem empty_error_not_copied_to_submission :
    sumDB.submissions.map (fun s => (s.status, s.error_message, s.transcript)) =
      [("summarizing", some "old", some "t")] ∧
    (processJob envEmptyErr sumDB 9 sumJob).jobs.map
        (fun j => (j.status, j.error_message)) =
      [("failed", some "")] ∧
    (processJob envEmptyErr sumDB 9 sumJob).submissions.map
        (fun s => (s.status, s.error_message)) =
      [("failed", some "old")] :=
  ⟨rfl, rfl, rfl⟩

/-- Witness for C6's amended theorem: a "timeout" failure marks the
submission failed with the error copied in, despite its prior transcript and
prior error detail. -/
theorem job_failure_fails_submission_witness :
    sumJob.audio_file_id = some "S" ∧
    envTimeout.summarizeTextBackend "hello world" = .error "timeout" ∧
    (({ priorSub with
        status := "failed"
        error_message := some "timeout"
        updated_at := 9 } : Submission) ∈
      (processJob envTimeout sumDB 9 sumJob).submissions) ∧
    (({ priorSub with
        status := "failed"
        error_message := some "timeout"
        updated_at := 9 } : Submission).status = "failed" ∧
      ({ priorSub with
        status := "failed"
        error_message := some "timeout"
        updated_at := 9 } : Submission).error_message = some "timeout") :=
  have hmem : ({ priorSub with
      status := "failed"
      error_message := some "timeout"
      updated_at := 9 } : Submission) ∈
      (processJob envTimeout sumDB 9 sumJob).submissions := List.Mem.head _
  ⟨rfl, rfl, hmem,
    (job_failure_fails_submission envTimeout sumDB 9 sumJob "S" "hello world" "timeout"
      rfl (by decide) (by decide)).2 rfl rfl (by decide) rfl _ hmem rfl⟩
